import Mathlib

/-! MAX7219 8x8 LED matrix driver (`Matrix.h`, `Matrix.cpp`)

A shallow embedding of the class `DT5EDU::matrix_8`.

* The object is the record `matrix_8`: the three `DigitalOut` pin levels, the
  two mode flags, the 8-byte buffer and the bus frequency.
* Every member function is a function from the object to the updated object
  together with the list of pin events it performed, in program order.
* `uint8_t` is `Fin 256`, `uint16_t` is a natural number reduced `% 65536`,
  the unscoped enumeration `Address` is its integer value, a `float` value is
  a rational. The one `float` operation, the product of `Set_Intensity`, is
  taken exactly in `Set_Intensity` and rounded to single precision in
  `Set_Intensity_float`; the two agree wherever the product needs no rounding.
* The receiving side of the bus (`Receiver`, `sampledBits`) is the observer
  used to state what a pin trace means as a sequence of register writes.
-/

namespace DT5EDU

/-! ## Data model -/

/-- The C type `uint8_t`. -/
abbrev uint8_t := Fin 256

/-- The alias `frame`, `std::array<uint8_t,8>`. -/
abbrev frame := Fin 8 → uint8_t

/-- The unscoped enumeration `matrix_8::Address`, carried as its integer value. -/
abbrev Address := Nat

def NoOperation : Address := 0b0000
def Digit0 : Address := 1
def Digit1 : Address := 2
def Digit2 : Address := 3
def Digit3 : Address := 4
def Digit4 : Address := 5
def Digit5 : Address := 6
def Digit6 : Address := 7
def Digit7 : Address := 8
def DecodeMode : Address := 0b1001
def Intensity : Address := 0b1010
def ScanLimit : Address := 0b1011
def Shutdown : Address := 0b1100
def DisplayTest : Address := 0b1111

/-- What the driver does to the outside world, one entry per statement that
touches a pin, the busy-wait or the SPI peripheral. A pin entry carries the
level driven (`true` is high). -/
inductive PinEvent where
  | cs (level : Bool)
  | mosi (level : Bool)
  | clk (level : Bool)
  | wait_ns (ns : Nat)
  | spi_write (word : Nat)
  deriving DecidableEq, Repr

/-- The data members of `matrix_8`. The pin fields hold the level last driven
on the corresponding `DigitalOut`. -/
structure matrix_8 where
  SPI_Freq : Nat := 1000000
  mosi : Bool
  clk : Bool
  cs : Bool
  inDisplayTest : Bool
  inShutdown : Bool
  buffer : frame

/-- A computation step: the object afterwards and the pin events performed. -/
abbrev Run := matrix_8 × List PinEvent

/-- Sequencing of two statements: run `f` on the object left by `p`, and
concatenate the events. -/
def Run.andThen (p : Run) (f : matrix_8 → Run) : Run :=
  ((f p.1).1, p.2 ++ (f p.1).2)

/-! ## Primitive statements -/

/-- The statement `cs = v;` (`DigitalOut::operator=(int)`: non-zero drives high). -/
def write_cs (v : Nat) (s : matrix_8) : Run :=
  ({ s with cs := v != 0 }, [PinEvent.cs (v != 0)])

/-- The statement `mosi = v;`. -/
def write_mosi (v : Nat) (s : matrix_8) : Run :=
  ({ s with mosi := v != 0 }, [PinEvent.mosi (v != 0)])

/-- The statement `clk = v;`. -/
def write_clk (v : Nat) (s : matrix_8) : Run :=
  ({ s with clk := v != 0 }, [PinEvent.clk (v != 0)])

/-- The statement `wait_ns(d);`. -/
def wait_ns (d : Nat) (s : matrix_8) : Run :=
  (s, [PinEvent.wait_ns d])

/-- The statement `spi.write(w);` of the hardware build. -/
def spi_write (w : Nat) (s : matrix_8) : Run :=
  (s, [PinEvent.spi_write w])

/-- The assignment `inDisplayTest = v;`. -/
def assign_inDisplayTest (v : Bool) (s : matrix_8) : Run :=
  ({ s with inDisplayTest := v }, [])

/-- The assignment `inShutdown = v;`. -/
def assign_inShutdown (v : Bool) (s : matrix_8) : Run :=
  ({ s with inShutdown := v }, [])

/-- The assignment `buffer = data;`. -/
def assign_buffer (data : frame) (s : matrix_8) : Run :=
  ({ s with buffer := data }, [])

/-- Conversion of a `bool` argument to `uint8_t`. -/
def bool_to_uint8 (b : Bool) : uint8_t := if b then 1 else 0

/-- Conversion of a `float` value to `uint8_t`: the fractional part is
discarded (truncation towards zero) and the integer is reduced to 8 bits. -/
def float_to_uint8 (x : ℚ) : uint8_t :=
  let t : Int := if 0 ≤ x then ⌊x⌋ else ⌈x⌉
  ⟨(t % 256).toNat, by omega⟩

/-- Rounding of a rational to the nearest integer, a tie going to the even one. -/
def roundHalfEven (q : ℚ) : Int :=
  if q - ⌊q⌋ < 1 / 2 then ⌊q⌋
  else if 1 / 2 < q - ⌊q⌋ then ⌊q⌋ + 1
  else if ⌊q⌋ % 2 = 0 then ⌊q⌋ else ⌊q⌋ + 1

/-- The binary exponent of the spacing of the single-precision numbers around
`q`: 23 below the binary exponent of `q`, which is taken at least `-126` (the
subnormal range). -/
def float_ulp_exponent (q : ℚ) : Int :=
  max (Int.log 2 |q|) (-126) - 23

/-- The value of a `float` operation whose exact result is `q`: the nearest
multiple of the spacing around `q`, a tie going to the even multiple (IEEE 754
single precision, round to nearest even, within the finite range). -/
def float_round (q : ℚ) : ℚ :=
  roundHalfEven (q / 2 ^ float_ulp_exponent q) * 2 ^ float_ulp_exponent q

/-! ## `Matrix.cpp` -/

/-- The local `uint16_t temp = (addr << 8) | data;` of `Transmit`. -/
def Transmit.temp (addr : Address) (data : uint8_t) : Nat :=
  ((addr <<< 8) ||| data.val) % 65536

/-- The local `uint16_t delay = 1.e9/SPI_Freq/2;` of `Transmit`. -/
def Transmit.delay (SPI_Freq : Nat) : Nat :=
  (1000000000 / SPI_Freq / 2) % 65536

/-- The loop `for (int i=15; i>=0; i--)` of the simulated-SPI `Transmit`; the
numeric argument is `i + 1`, the number of iterations still to run. -/
def Transmit.loop (temp delay : Nat) : Nat → matrix_8 → Run
  | 0, s => (s, [])
  | i + 1, s =>
    (write_mosi ((temp >>> i) &&& 0x1) s).andThen fun s =>
    (write_clk 1 s).andThen fun s =>
    (wait_ns delay s).andThen fun s =>
    (write_clk 0 s).andThen fun s =>
    (wait_ns delay s).andThen fun s =>
    Transmit.loop temp delay i s

/-- The function `matrix_8::Transmit` with `_Matrix_8_Using_Simulated_SPI_`
defined, as `Matrix.h` defines it. -/
def Transmit (s : matrix_8) (addr : Address := NoOperation) (data : uint8_t := 0x0) : Run :=
  let temp := Transmit.temp addr data
  (write_cs 0 s).andThen fun s =>
  let delay := Transmit.delay s.SPI_Freq
  (Transmit.loop temp delay 16 s).andThen fun s =>
  write_cs 1 s

/-- The function `matrix_8::Transmit` of the hardware-SPI build (the `#else`
branch). -/
def Transmit_HardwareSPI (s : matrix_8) (addr : Address := NoOperation)
    (data : uint8_t := 0x0) : Run :=
  let temp := Transmit.temp addr data
  (write_cs 0 s).andThen fun s =>
  (spi_write temp s).andThen fun s =>
  write_cs 1 s

/-- The loop `for (int i=1; i<=8; i++)` of `SendBuffer`, entered at `i`. -/
def SendBuffer.loop (i : Nat) (s : matrix_8) : Run :=
  if h : i ≤ 8 then
    let p := Transmit s i (s.buffer ⟨i - 1, by omega⟩)
    let q := SendBuffer.loop (i + 1) p.1
    (q.1, p.2 ++ q.2)
  else (s, [])
termination_by 9 - i

/-- The function `matrix_8::SendBuffer`. -/
def SendBuffer (s : matrix_8) : Run :=
  SendBuffer.loop 1 s

/-- The function `matrix_8::Set_Intensity`, with the `float` product
`0b1111 * intensity` taken as the exact rational product. -/
def Set_Intensity (s : matrix_8) (intensity : ℚ := 1) : Run :=
  let value : uint8_t := float_to_uint8 (0b1111 * intensity)
  Transmit s Intensity value

/-- The function `matrix_8::Set_Intensity`, with the `float` product
`0b1111 * intensity` rounded to single precision before the conversion to
`uint8_t`, as the code computes it for a `float` argument. -/
def Set_Intensity_float (s : matrix_8) (intensity : ℚ := 1) : Run :=
  let value : uint8_t := float_to_uint8 (float_round (0b1111 * intensity))
  Transmit s Intensity value

/-- The function `matrix_8::Set_MatrixTest`. -/
def Set_MatrixTest (s : matrix_8) (mode : Bool) : Run :=
  (Transmit s DisplayTest (bool_to_uint8 mode)).andThen fun s =>
  assign_inDisplayTest mode s

/-- The function `matrix_8::Set_Shutdown`. -/
def Set_Shutdown (s : matrix_8) (mode : Bool) : Run :=
  (Transmit s Shutdown (bool_to_uint8 (!mode))).andThen fun s =>
  assign_inShutdown mode s

/-- The function `matrix_8::Init_Setting`. -/
def Init_Setting (s : matrix_8) : Run :=
  (Transmit s DecodeMode).andThen fun s =>
  (Set_MatrixTest s false).andThen fun s =>
  (Set_Shutdown s false).andThen fun s =>
  (Set_Intensity s).andThen fun s =>
  Transmit s ScanLimit 0b111

/-- The function `matrix_8::ClearBuffer`. -/
def ClearBuffer (s : matrix_8) : Run :=
  assign_buffer (fun _ => 0) s

/-- The operator `matrix_8::operator<<` (display one frame). -/
def operator_lshift (s : matrix_8) (data : frame) : Run :=
  (assign_buffer data s).andThen fun s =>
  SendBuffer s

/-! ## `Matrix.h` -/

/-- The accessor `is_In_MatrixTest`. -/
def is_In_MatrixTest (s : matrix_8) : Bool := s.inDisplayTest

/-- The accessor `is_In_Shutdown`. -/
def is_In_Shutdown (s : matrix_8) : Bool := s.inShutdown

/-- The constructor `matrix_8::matrix_8` of the simulated-SPI build, run on the storage `raw` of
the new object. The member initialisers bind the three pins and give
`SPI_Freq` its default; the body then drives `cs` and `clk`, fills the buffer,
clears both flags and calls `Init_Setting`. -/
def matrix_8.new (raw : matrix_8) : Run :=
  let s : matrix_8 := { raw with SPI_Freq := 1000000 }
  (write_cs 1 s).andThen fun s =>
  (write_clk 0 s).andThen fun s =>
  (assign_buffer (fun _ => 0) s).andThen fun s =>
  (assign_inDisplayTest false s).andThen fun s =>
  (assign_inShutdown false s).andThen fun s =>
  Init_Setting s

/-- The member function `HelloWorld`. -/
def HelloWorld (s : matrix_8) : Run :=
  operator_lshift s ![0, 0b100, 0b1100010, 0b10, 0b10, 0b1100010, 0b100, 0]

/-! ## The receiving side of the bus

The driver only writes pins. What a pin trace means is fixed by the receiver:
it samples the data line on every rising clock edge, collects the sampled bits
while chip-select is low, and on the release of chip-select takes the bits of
the frame as one 16-bit word, `[15:8]` register address and `[7:0]` data. -/

/-- The levels of the data line at the rising clock edges of a trace, in
order, for a clock line at level `clk` and a data line at level `mosi` before
the trace. -/
def sampledBits : Bool → Bool → List PinEvent → List Bool
  | _, _, [] => []
  | clk, mosi, PinEvent.clk v :: es =>
    if !clk && v then mosi :: sampledBits v mosi es else sampledBits v mosi es
  | clk, _, PinEvent.mosi v :: es => sampledBits clk v es
  | clk, mosi, _ :: es => sampledBits clk mosi es

/-- The number read from a list of bits, most significant bit first. -/
def wordOf (bits : List Bool) : Nat :=
  bits.foldl (fun acc b => 2 * acc + b.toNat) 0

/-- The lowest `n` bits of `w`, most significant first. -/
def wordBits (w : Nat) : Nat → List Bool
  | 0 => []
  | n + 1 => w.testBit n :: wordBits w n

/-- One register write as the chip receives it. -/
structure Transaction where
  addr : Nat
  data : Nat
  deriving DecidableEq, Repr

/-- The register write carried by the bits of one chip-select frame; `none`
when the frame does not hold exactly 16 bits. -/
def Transaction.ofBits (bits : List Bool) : Option Transaction :=
  if bits.length = 16 then some ⟨wordOf bits >>> 8, wordOf bits &&& 0xFF⟩ else none

/-- The receiver: the line levels it sees, the bits of the frame that is open
(`none` while chip-select is released) and the frames closed so far. -/
structure Receiver where
  clk : Bool
  mosi : Bool
  frame : Option (List Bool)
  out : List (Option Transaction)

/-- A receiver that is not selected and has received nothing. -/
def Receiver.idle (clk mosi : Bool) : Receiver :=
  { clk := clk, mosi := mosi, frame := none, out := [] }

/-- The reaction of the receiver to one event. A peripheral write shifts the
16 bits of its word out, most significant first. -/
def Receiver.step (r : Receiver) : PinEvent → Receiver
  | PinEvent.cs false =>
    match r.frame with
    | none => { r with frame := some [] }
    | some _ => r
  | PinEvent.cs true =>
    match r.frame with
    | none => r
    | some bits => { r with frame := none, out := r.out ++ [Transaction.ofBits bits] }
  | PinEvent.mosi v => { r with mosi := v }
  | PinEvent.clk v =>
    if !r.clk && v then { r with clk := v, frame := r.frame.map (· ++ [r.mosi]) }
    else { r with clk := v }
  | PinEvent.wait_ns _ => r
  | PinEvent.spi_write w => { r with frame := r.frame.map (· ++ wordBits w 16) }

/-- The frames a receiver in state `r` closes over a trace. -/
def Receiver.run (r : Receiver) (evs : List PinEvent) : Receiver :=
  evs.foldl Receiver.step r

/-- The register writes an unselected receiver decodes from the trace `evs`,
when the clock and data lines are at the levels of `s` before the trace. -/
def transactions (s : matrix_8) (evs : List PinEvent) : List (Option Transaction) :=
  ((Receiver.idle s.clk s.mosi).run evs).out

/-- The bus is idle: chip-select released (high) and the clock low. -/
def BusIdle (s : matrix_8) : Prop := s.cs = true ∧ s.clk = false

instance (s : matrix_8) : Decidable (BusIdle s) := by
  unfold BusIdle; infer_instance

/-- The objects a program can hold: the result of the constructor, then any
sequence of the public member functions and of assignments to the public
member `buffer`. -/
inductive Reachable : matrix_8 → Prop
  | new (raw : matrix_8) : Reachable (matrix_8.new raw).1
  | Init_Setting {s : matrix_8} : Reachable s → Reachable (Init_Setting s).1
  | Set_Intensity {s : matrix_8} (intensity : ℚ) : Reachable s →
      Reachable (Set_Intensity s intensity).1
  | Set_MatrixTest {s : matrix_8} (mode : Bool) : Reachable s →
      Reachable (Set_MatrixTest s mode).1
  | Set_Shutdown {s : matrix_8} (mode : Bool) : Reachable s →
      Reachable (Set_Shutdown s mode).1
  | ClearBuffer {s : matrix_8} : Reachable s → Reachable (ClearBuffer s).1
  | SendBuffer {s : matrix_8} : Reachable s → Reachable (SendBuffer s).1
  | operator_lshift {s : matrix_8} (data : frame) : Reachable s →
      Reachable (operator_lshift s data).1
  | HelloWorld {s : matrix_8} : Reachable s → Reachable (HelloWorld s).1
  | assign_buffer {s : matrix_8} (data : frame) : Reachable s →
      Reachable (assign_buffer data s).1

/-- Whether an event is a write to the chip-select line. -/
def PinEvent.isCs : PinEvent → Bool
  | PinEvent.cs _ => true
  | _ => false

/-- The run `p`, started on the object `s`, leaves the bus idle, and a receiver
that is unselected and sees the clock and data levels of `s` decodes exactly
the register writes `ts` over the events of `p`, ending unselected and seeing
the levels of the object left by `p`. -/
def Sends (s : matrix_8) (p : Run) (ts : List (Option Transaction)) : Prop :=
  BusIdle p.1 ∧
    ∀ out, Receiver.run ⟨s.clk, s.mosi, none, out⟩ p.2 = ⟨p.1.clk, p.1.mosi, none, out ++ ts⟩

/-- The register writes of rows `i - 1`, `i`, ... (`k` of them) of a buffer,
row `j` going to address `j + 1`. -/
def rowWrites (b : frame) : Nat → Nat → List (Option Transaction)
  | _, 0 => []
  | i, k + 1 => some ⟨i, (b (Fin.ofNat (i - 1))).val⟩ :: rowWrites b (i + 1) k

/-- An object with an idle bus, both flags clear and an empty buffer. -/
def idleObject : matrix_8 :=
  { mosi := false, clk := false, cs := true,
    inDisplayTest := false, inShutdown := false, buffer := fun _ => 0 }

/-- A call of a public member function, with its arguments. -/
inductive PublicOp where
  | Init_Setting
  | Set_Intensity (intensity : ℚ)
  | Set_MatrixTest (mode : Bool)
  | Set_Shutdown (mode : Bool)
  | ClearBuffer
  | SendBuffer
  | operator_lshift (data : frame)
  | HelloWorld

/-- The member function a `PublicOp` calls. -/
def PublicOp.run : PublicOp → matrix_8 → Run
  | PublicOp.Init_Setting, s => DT5EDU.Init_Setting s
  | PublicOp.Set_Intensity x, s => DT5EDU.Set_Intensity s x
  | PublicOp.Set_MatrixTest m, s => DT5EDU.Set_MatrixTest s m
  | PublicOp.Set_Shutdown m, s => DT5EDU.Set_Shutdown s m
  | PublicOp.ClearBuffer, s => DT5EDU.ClearBuffer s
  | PublicOp.SendBuffer, s => DT5EDU.SendBuffer s
  | PublicOp.operator_lshift data, s => DT5EDU.operator_lshift s data
  | PublicOp.HelloWorld, s => DT5EDU.HelloWorld s

/-- The values of the enumerators of `Address`. -/
def enumerators : List Nat :=
  [NoOperation, Digit0, Digit1, Digit2, Digit3, Digit4, Digit5, Digit6, Digit7,
   DecodeMode, Intensity, ScanLimit, Shutdown, DisplayTest]

/-- Whether every write to the data line in a trace happens while the clock
line is low, for a clock line at level `clk` before the trace. -/
def dataWrittenOnlyWhileClockLow : Bool → List PinEvent → Bool
  | _, [] => true
  | _, PinEvent.clk v :: es => dataWrittenOnlyWhileClockLow v es
  | clk, PinEvent.mosi _ :: es => !clk && dataWrittenOnlyWhileClockLow clk es
  | clk, _ :: es => dataWrittenOnlyWhileClockLow clk es

/-- The level driven by the first write to the clock line in a trace. -/
def firstClockWrite : List PinEvent → Option Bool
  | [] => none
  | PinEvent.clk v :: _ => some v
  | _ :: es => firstClockWrite es

/-- The pin events of the 16-iteration loop of `Transmit`, written out. -/
def loopEvents (temp delay : Nat) : Nat → List PinEvent
  | 0 => []
  | i + 1 =>
    PinEvent.mosi (temp.testBit i) :: PinEvent.clk true :: PinEvent.wait_ns delay ::
      PinEvent.clk false :: PinEvent.wait_ns delay :: loopEvents temp delay i

/-! ## The trace of `Transmit` -/

theorem Run.andThen_fst (p : Run) (f : matrix_8 → Run) : (p.andThen f).1 = (f p.1).1 := rfl

theorem Run.andThen_snd (p : Run) (f : matrix_8 → Run) :
    (p.andThen f).2 = p.2 ++ (f p.1).2 := rfl

theorem shift_and_one_ne_zero (temp i : Nat) :
    ((temp >>> i) &&& 0x1 != 0) = temp.testBit i := by
  simp [Nat.testBit, Nat.and_comm]

theorem Transmit_loop_events (temp delay n : Nat) (s : matrix_8) :
    (Transmit.loop temp delay n s).2 = loopEvents temp delay n := by
  induction n generalizing s with
  | zero => rfl
  | succ i ih =>
    simp only [Transmit.loop, Run.andThen, write_mosi, write_clk, wait_ns, loopEvents, ih,
      shift_and_one_ne_zero]
    simp

theorem Transmit_loop_state (temp delay n : Nat) (s : matrix_8) :
    (Transmit.loop temp delay (n + 1) s).1 =
      { s with mosi := temp.testBit 0, clk := false } := by
  induction n generalizing s with
  | zero =>
    simp only [Transmit.loop, Run.andThen, write_mosi, write_clk, wait_ns,
      shift_and_one_ne_zero]
    simp
  | succ i ih =>
    rw [Transmit.loop]
    simp only [Run.andThen, write_mosi, write_clk, wait_ns]
    rw [ih]

theorem Transmit_events (s : matrix_8) (addr : Address) (data : uint8_t) :
    (Transmit s addr data).2 =
      PinEvent.cs false ::
        (loopEvents (Transmit.temp addr data) (Transmit.delay s.SPI_Freq) 16 ++
          [PinEvent.cs true]) := by
  simp [Transmit, Run.andThen, write_cs, Transmit_loop_events]

theorem Transmit_state (s : matrix_8) (addr : Address) (data : uint8_t) :
    (Transmit s addr data).1 =
      { s with mosi := (Transmit.temp addr data).testBit 0, clk := false, cs := true } := by
  simp only [Transmit, Run.andThen, write_cs]
  rw [Transmit_loop_state]
  simp

/-! ## Bits and words -/

theorem wordBits_length (w n : Nat) : (wordBits w n).length = n := by
  induction n with
  | zero => rfl
  | succ n ih => simp [wordBits, ih]

theorem wordBits_getElem? (w n k : Nat) (hk : k < n) :
    (wordBits w n)[k]? = some (w.testBit (n - 1 - k)) := by
  induction n generalizing k with
  | zero => omega
  | succ n ih =>
    cases k with
    | zero => simp [wordBits]
    | succ k =>
      have h := ih k (by omega)
      have e : n + 1 - 1 - (k + 1) = n - 1 - k := by omega
      rw [e, ← h]
      simp [wordBits]

theorem foldl_wordBits (w n acc : Nat) :
    (wordBits w n).foldl (fun acc b => 2 * acc + b.toNat) acc = acc * 2 ^ n + w % 2 ^ n := by
  induction n generalizing acc with
  | zero => simp [wordBits, Nat.mod_one]
  | succ n ih =>
    simp only [wordBits, List.foldl_cons]
    rw [ih, Nat.mod_pow_succ, Nat.toNat_testBit]
    ring

theorem wordOf_wordBits (w n : Nat) : wordOf (wordBits w n) = w % 2 ^ n := by
  simp [wordOf, foldl_wordBits]

theorem shl_or_eq (addr : Nat) (data : uint8_t) :
    (addr <<< 8) ||| data.val = addr * 256 + data.val := by
  have h : data.val < 2 ^ 8 := data.isLt
  rw [Nat.shiftLeft_eq, Nat.mul_comm, ← Nat.mul_add_lt_is_or h]

theorem temp_eq (addr : Nat) (data : uint8_t) (h : addr < 256) :
    Transmit.temp addr data = addr * 256 + data.val := by
  have hd : data.val < 256 := data.isLt
  rw [Transmit.temp, shl_or_eq]
  omega

theorem temp_testBit_zero (addr : Nat) (data : uint8_t) :
    (Transmit.temp addr data).testBit 0 = data.val.testBit 0 := by
  have hd : data.val < 256 := data.isLt
  have e : (addr * 256 + data.val) % 65536 % 2 = data.val % 2 := by omega
  rw [Transmit.temp, shl_or_eq]
  simp only [Nat.testBit_zero, e]

theorem ofBits_temp (addr : Nat) (data : uint8_t) (h : addr < 256) :
    Transaction.ofBits (wordBits (Transmit.temp addr data) 16) = some ⟨addr, data.val⟩ := by
  have hd : data.val < 256 := data.isLt
  have h1 : ((addr * 256 + data.val) % 65536) >>> 8 = addr := by
    rw [Nat.shiftRight_eq_div_pow]; omega
  have h2 : ((addr * 256 + data.val) % 65536) &&& 255 = data.val := by
    rw [show (255 : Nat) = 2 ^ 8 - 1 from rfl, Nat.and_pow_two_sub_one_eq_mod]; omega
  simp [Transaction.ofBits, wordBits_length, wordOf_wordBits, temp_eq addr data h, h1, h2]

/-! ## What the receiver sees of one `Transmit` -/

theorem sampledBits_cs (clk mosi v : Bool) (es : List PinEvent) :
    sampledBits clk mosi (PinEvent.cs v :: es) = sampledBits clk mosi es := rfl

theorem sampledBits_bit (mosi b : Bool) (d : Nat) (es : List PinEvent) :
    sampledBits false mosi
        (PinEvent.mosi b :: PinEvent.clk true :: PinEvent.wait_ns d ::
          PinEvent.clk false :: PinEvent.wait_ns d :: es) =
      b :: sampledBits false b es := rfl

theorem sampledBits_loopEvents (temp delay n : Nat) (mosi : Bool) (rest : List PinEvent) :
    sampledBits false mosi (loopEvents temp delay n ++ rest) =
      wordBits temp n ++ sampledBits false (if n = 0 then mosi else temp.testBit 0) rest := by
  induction n generalizing mosi with
  | zero => simp [loopEvents, wordBits]
  | succ n ih =>
    simp only [loopEvents, List.cons_append, sampledBits_bit, ih, wordBits]
    cases n <;> simp [-Nat.testBit_zero]

theorem sampledBits_Transmit (s : matrix_8) (addr : Address) (data : uint8_t)
    (hclk : s.clk = false) :
    sampledBits s.clk s.mosi (Transmit s addr data).2 = wordBits (Transmit.temp addr data) 16 := by
  rw [Transmit_events, hclk, sampledBits_cs, sampledBits_loopEvents, sampledBits_cs]
  simp [sampledBits]

theorem Receiver_run_append (r : Receiver) (e1 e2 : List PinEvent) :
    r.run (e1 ++ e2) = (r.run e1).run e2 := by
  simp [Receiver.run, List.foldl_append]

theorem Receiver_run_loopEvents (temp delay n : Nat) (mosi : Bool) (bits : List Bool)
    (out : List (Option Transaction)) :
    Receiver.run ⟨false, mosi, some bits, out⟩ (loopEvents temp delay n) =
      ⟨false, if n = 0 then mosi else temp.testBit 0, some (bits ++ wordBits temp n), out⟩ := by
  induction n generalizing mosi bits with
  | zero => simp [loopEvents, wordBits, Receiver.run]
  | succ n ih =>
    have h := ih (temp.testBit n) (bits ++ [temp.testBit n])
    simp only [Receiver.run] at h
    simp only [loopEvents, Receiver.run, List.foldl_cons, Receiver.step, wordBits]
    simp only [Bool.not_false, Bool.and_true, Bool.and_false, if_true, Option.map_some,
      Bool.false_eq_true, if_false]
    refine Eq.trans h ?_
    cases n <;> simp [-Nat.testBit_zero]

theorem Receiver_run_Transmit (s : matrix_8) (addr : Address) (data : uint8_t) (mosi : Bool)
    (out : List (Option Transaction)) :
    Receiver.run ⟨false, mosi, none, out⟩ (Transmit s addr data).2 =
      ⟨false, (Transmit.temp addr data).testBit 0, none,
        out ++ [Transaction.ofBits (wordBits (Transmit.temp addr data) 16)]⟩ := by
  rw [Transmit_events, ← List.singleton_append, Receiver_run_append, Receiver_run_append]
  have h0 : Receiver.run ⟨false, mosi, none, out⟩ [PinEvent.cs false] =
      ⟨false, mosi, some [], out⟩ := rfl
  rw [h0, Receiver_run_loopEvents]
  simp [Receiver.run, Receiver.step]

theorem loopEvents_not_cs (temp delay n : Nat) :
    ∀ e ∈ loopEvents temp delay n, e.isCs = false := by
  induction n with
  | zero => simp [loopEvents]
  | succ n ih =>
    intro e he
    simp only [loopEvents, List.mem_cons] at he
    rcases he with h | h | h | h | h | h
    · subst h; rfl
    · subst h; rfl
    · subst h; rfl
    · subst h; rfl
    · subst h; rfl
    · exact ih e h

/-! ## Composition of runs as seen by the receiver -/

theorem Sends.transactions_eq {s : matrix_8} {p : Run} {ts : List (Option Transaction)}
    (h : Sends s p ts) : transactions s p.2 = ts := by
  have h2 := h.2 []
  simp [transactions, Receiver.idle, h2]

theorem Sends.andThen {s : matrix_8} {p : Run} {f : matrix_8 → Run}
    {t1 t2 : List (Option Transaction)}
    (h1 : Sends s p t1) (h2 : Sends p.1 (f p.1) t2) : Sends s (p.andThen f) (t1 ++ t2) := by
  refine ⟨h2.1, fun out => ?_⟩
  simp only [Run.andThen]
  rw [Receiver_run_append, h1.2, h2.2, List.append_assoc]

theorem Sends_Transmit (s : matrix_8) (addr : Nat) (data : uint8_t)
    (hs : BusIdle s) (ha : addr < 256) :
    Sends s (Transmit s addr data) [some ⟨addr, data.val⟩] := by
  refine ⟨?_, fun out => ?_⟩
  · rw [Transmit_state]; exact ⟨rfl, rfl⟩
  · rw [hs.2, Receiver_run_Transmit, ofBits_temp addr data ha, Transmit_state]

theorem Sends_assign_inDisplayTest (s : matrix_8) (v : Bool) (hs : BusIdle s) :
    Sends s (assign_inDisplayTest v s) [] :=
  ⟨hs, fun out => by simp [assign_inDisplayTest, Receiver.run]⟩

theorem Sends_assign_inShutdown (s : matrix_8) (v : Bool) (hs : BusIdle s) :
    Sends s (assign_inShutdown v s) [] :=
  ⟨hs, fun out => by simp [assign_inShutdown, Receiver.run]⟩

theorem Sends_assign_buffer (s : matrix_8) (data : frame) (hs : BusIdle s) :
    Sends s (assign_buffer data s) [] :=
  ⟨hs, fun out => by simp [assign_buffer, Receiver.run]⟩

theorem Sends_Set_MatrixTest (s : matrix_8) (mode : Bool) (hs : BusIdle s) :
    Sends s (Set_MatrixTest s mode) [some ⟨15, (bool_to_uint8 mode).val⟩] := by
  have h1 := Sends_Transmit s DisplayTest (bool_to_uint8 mode) hs (by decide)
  exact h1.andThen (Sends_assign_inDisplayTest _ mode h1.1)

theorem Sends_Set_Shutdown (s : matrix_8) (mode : Bool) (hs : BusIdle s) :
    Sends s (Set_Shutdown s mode) [some ⟨12, (bool_to_uint8 (!mode)).val⟩] := by
  have h1 := Sends_Transmit s Shutdown (bool_to_uint8 (!mode)) hs (by decide)
  exact h1.andThen (Sends_assign_inShutdown _ mode h1.1)

theorem Sends_Set_Intensity (s : matrix_8) (intensity : ℚ) (hs : BusIdle s) :
    Sends s (Set_Intensity s intensity) [some ⟨10, (float_to_uint8 (15 * intensity)).val⟩] :=
  Sends_Transmit s Intensity _ hs (by decide)

theorem float_to_uint8_one : float_to_uint8 (15 * 1) = 15 := by
  simp [float_to_uint8]

theorem Sends_Init_Setting (s : matrix_8) (hs : BusIdle s) :
    Sends s (Init_Setting s)
      [some ⟨9, 0⟩, some ⟨15, 0⟩, some ⟨12, 1⟩, some ⟨10, 15⟩, some ⟨11, 7⟩] := by
  have h1 := Sends_Transmit s DecodeMode 0x0 hs (by decide)
  have h2 := Sends_Set_MatrixTest _ false h1.1
  have h3 := Sends_Set_Shutdown _ false h2.1
  have h4 := Sends_Set_Intensity _ 1 h3.1
  have h5 := Sends_Transmit _ ScanLimit 0b111 h4.1 (by decide)
  rw [float_to_uint8_one] at h4
  exact h1.andThen (h2.andThen (h3.andThen (h4.andThen h5)))

/-! ## The loop of `SendBuffer` -/

theorem SendBuffer_loop_le (i : Nat) (s : matrix_8) (h : i ≤ 8) :
    SendBuffer.loop i s =
      (Transmit s i (s.buffer ⟨i - 1, by omega⟩)).andThen (SendBuffer.loop (i + 1)) := by
  rw [SendBuffer.loop]
  simp [h, Run.andThen]

theorem SendBuffer_loop_gt (i : Nat) (s : matrix_8) (h : 8 < i) :
    SendBuffer.loop i s = (s, []) := by
  rw [SendBuffer.loop]
  simp [Nat.not_le.mpr h]

theorem SendBuffer_loop_state (k : Nat) :
    ∀ (i : Nat) (s : matrix_8), i + k = 9 → 1 ≤ i →
      (SendBuffer.loop i s).1 =
        if k = 0 then s
        else { s with mosi := (s.buffer 7).val.testBit 0, clk := false, cs := true } := by
  induction k with
  | zero =>
    intro i s hi _
    rw [SendBuffer_loop_gt i s (by omega)]
    simp
  | succ k ih =>
    intro i s hi h1
    rw [SendBuffer_loop_le i s (by omega)]
    simp only [Run.andThen]
    rw [ih (i + 1) _ (by omega) (by omega), Transmit_state]
    by_cases hk : k = 0
    · have h8 : i = 8 := by omega
      subst h8
      simp [hk, temp_testBit_zero, -Nat.testBit_zero]
    · simp [hk]

theorem Sends_SendBuffer_loop (k : Nat) :
    ∀ (i : Nat) (s : matrix_8), i + k = 9 → 1 ≤ i → BusIdle s →
      Sends s (SendBuffer.loop i s) (rowWrites s.buffer i k) := by
  induction k with
  | zero =>
    intro i s hi _ hs
    rw [SendBuffer_loop_gt i s (by omega)]
    exact ⟨hs, fun out => by simp [rowWrites, Receiver.run]⟩
  | succ k ih =>
    intro i s hi h1 hs
    rw [SendBuffer_loop_le i s (by omega)]
    have hT := Sends_Transmit s i (s.buffer ⟨i - 1, by omega⟩) hs (by omega)
    have hL := ih (i + 1) (Transmit s i (s.buffer ⟨i - 1, by omega⟩)).1 (by omega) (by omega) hT.1
    have hb : (Transmit s i (s.buffer ⟨i - 1, by omega⟩)).1.buffer = s.buffer := by
      rw [Transmit_state]
    have hidx : (Fin.ofNat (i - 1) : Fin 8) = ⟨i - 1, by omega⟩ := by
      apply Fin.ext
      show (i - 1) % 8 = i - 1
      omega
    rw [hb] at hL
    have h := hT.andThen hL
    simpa [rowWrites, hidx] using h

theorem Sends_SendBuffer (s : matrix_8) (hs : BusIdle s) :
    Sends s (SendBuffer s)
      [some ⟨1, (s.buffer 0).val⟩, some ⟨2, (s.buffer 1).val⟩, some ⟨3, (s.buffer 2).val⟩,
       some ⟨4, (s.buffer 3).val⟩, some ⟨5, (s.buffer 4).val⟩, some ⟨6, (s.buffer 5).val⟩,
       some ⟨7, (s.buffer 6).val⟩, some ⟨8, (s.buffer 7).val⟩] :=
  Sends_SendBuffer_loop 8 1 s rfl (Nat.le_refl 1) hs

theorem SendBuffer_state (s : matrix_8) :
    (SendBuffer s).1 =
      { s with mosi := (s.buffer 7).val.testBit 0, clk := false, cs := true } :=
  SendBuffer_loop_state 8 1 s rfl (Nat.le_refl 1)

/-! ## Display, construction and intensity -/

theorem Sends_operator_lshift (s : matrix_8) (data : frame) (hs : BusIdle s) :
    Sends s (operator_lshift s data)
      [some ⟨1, (data 0).val⟩, some ⟨2, (data 1).val⟩, some ⟨3, (data 2).val⟩,
       some ⟨4, (data 3).val⟩, some ⟨5, (data 4).val⟩, some ⟨6, (data 5).val⟩,
       some ⟨7, (data 6).val⟩, some ⟨8, (data 7).val⟩] := by
  have h1 := Sends_assign_buffer s data hs
  exact h1.andThen (Sends_SendBuffer _ h1.1)

theorem operator_lshift_state (s : matrix_8) (data : frame) :
    (operator_lshift s data).1 =
      { s with buffer := data, mosi := (data 7).val.testBit 0, clk := false, cs := true } := by
  rw [operator_lshift, Run.andThen_fst, SendBuffer_state]
  rfl

theorem new_prologue (raw : matrix_8) :
    (assign_inShutdown false (assign_inDisplayTest false (assign_buffer (fun _ => 0)
      (write_clk 0 (write_cs 1 { raw with SPI_Freq := 1000000 }).1).1).1).1).1 =
    { raw with SPI_Freq := 1000000, cs := true, clk := false, buffer := fun _ => 0,
               inDisplayTest := false, inShutdown := false } := rfl

theorem new_fst (raw : matrix_8) :
    (matrix_8.new raw).1 =
      (Init_Setting
          { raw with SPI_Freq := 1000000, cs := true, clk := false, buffer := fun _ => 0,
                     inDisplayTest := false, inShutdown := false }).1 := by
  unfold matrix_8.new
  rw [Run.andThen_fst, Run.andThen_fst, Run.andThen_fst, Run.andThen_fst, Run.andThen_fst,
    new_prologue]

theorem new_prologue_events (X : matrix_8) (evs : List PinEvent) :
    (write_cs 1 X).2 ++ ((write_clk 0 (write_cs 1 X).1).2 ++
      ((assign_buffer (fun _ => 0) (write_clk 0 (write_cs 1 X).1).1).2 ++
        ((assign_inDisplayTest false
            (assign_buffer (fun _ => 0) (write_clk 0 (write_cs 1 X).1).1).1).2 ++
          ((assign_inShutdown false (assign_inDisplayTest false
              (assign_buffer (fun _ => 0) (write_clk 0 (write_cs 1 X).1).1).1).1).2 ++ evs)))) =
      PinEvent.cs true :: PinEvent.clk false :: evs := rfl

theorem new_snd (raw : matrix_8) :
    (matrix_8.new raw).2 =
      PinEvent.cs true :: PinEvent.clk false ::
        (Init_Setting
          { raw with SPI_Freq := 1000000, cs := true, clk := false, buffer := fun _ => 0,
                     inDisplayTest := false, inShutdown := false }).2 := by
  unfold matrix_8.new
  rw [Run.andThen_snd, Run.andThen_snd, Run.andThen_snd, Run.andThen_snd, Run.andThen_snd,
    new_prologue]
  exact new_prologue_events _ _

theorem Receiver_run_prologue (clk mosi : Bool) (out : List (Option Transaction))
    (evs : List PinEvent) :
    Receiver.run ⟨clk, mosi, none, out⟩ (PinEvent.cs true :: PinEvent.clk false :: evs) =
      Receiver.run ⟨false, mosi, none, out⟩ evs := by
  cases clk <;> rfl

theorem Sends_new (raw : matrix_8) :
    Sends raw (matrix_8.new raw)
      [some ⟨9, 0⟩, some ⟨15, 0⟩, some ⟨12, 1⟩, some ⟨10, 15⟩, some ⟨11, 7⟩] := by
  have hI := Sends_Init_Setting
    { raw with SPI_Freq := 1000000, cs := true, clk := false, buffer := fun _ => 0,
               inDisplayTest := false, inShutdown := false } ⟨rfl, rfl⟩
  refine ⟨by rw [new_fst]; exact hI.1, fun out => ?_⟩
  rw [new_fst, new_snd, Receiver_run_prologue]
  exact hI.2 out

/-- Every object a program can hold has an idle bus, so the theorems below,
stated for an idle bus, cover every call a program can make. -/
theorem Reachable_busIdle {s : matrix_8} (h : Reachable s) : BusIdle s := by
  induction h with
  | new raw => exact (Sends_new raw).1
  | Init_Setting _ ih => exact (Sends_Init_Setting _ ih).1
  | Set_Intensity x _ ih => exact (Sends_Set_Intensity _ x ih).1
  | Set_MatrixTest m _ ih => exact (Sends_Set_MatrixTest _ m ih).1
  | Set_Shutdown m _ ih => exact (Sends_Set_Shutdown _ m ih).1
  | ClearBuffer _ ih => exact (Sends_assign_buffer _ _ ih).1
  | SendBuffer _ ih => exact (Sends_SendBuffer _ ih).1
  | operator_lshift d _ ih => exact (Sends_operator_lshift _ d ih).1
  | HelloWorld _ ih => exact (Sends_operator_lshift _ _ ih).1
  | assign_buffer d _ ih => exact (Sends_assign_buffer _ d ih).1

theorem float_to_uint8_floor (x : ℚ) (h0 : 0 ≤ x) (h1 : x < 256) :
    (float_to_uint8 x).val = ⌊x⌋₊ := by
  have hf0 : 0 ≤ ⌊x⌋ := Int.floor_nonneg.mpr h0
  have hf1 : ⌊x⌋ < 256 := Int.floor_lt.mpr (by exact_mod_cast h1)
  simp only [float_to_uint8, h0, if_true]
  rw [← Int.floor_toNat]
  omega

/-! ## C1, C2: the word on the wire and its framing -/

/-- C1: when the clock line is low on entry (as the constructor and every
`Transmit` leave it), one simulated-SPI `Transmit(a, d)` with `a` in `0..15`
produces exactly 16 rising clock edges, the data line at the `k`-th of them is
bit `15 - k` of `(a << 8) | d`, and the 16 sampled bits read most significant
first are `(a << 8) | d`. -/
theorem Transmit_word_msb_first (s : matrix_8) (a : Address) (d : uint8_t)
    (hclk : s.clk = false) (ha : a < 16) :
    (sampledBits s.clk s.mosi (Transmit s a d).2).length = 16 ∧
    (∀ k, k < 16 → (sampledBits s.clk s.mosi (Transmit s a d).2)[k]? =
        some (((a <<< 8) ||| d.val).testBit (15 - k))) ∧
    wordOf (sampledBits s.clk s.mosi (Transmit s a d).2) = (a <<< 8) ||| d.val := by
  have hd : d.val < 256 := d.isLt
  have ha' : @LT.lt Nat instLTNat a 16 := ha
  have ht : Transmit.temp a d = (a <<< 8) ||| d.val := by
    rw [Transmit.temp, shl_or_eq]
    omega
  rw [sampledBits_Transmit s a d hclk, ht]
  refine ⟨wordBits_length _ _, fun k hk => wordBits_getElem? _ 16 k hk, ?_⟩
  rw [wordOf_wordBits, shl_or_eq]
  omega

/-- C1 at a concrete call: `Transmit(Intensity, 15)` on an idle bus. -/
theorem Transmit_word_msb_first_witness :
    idleObject.clk = false ∧ Intensity < 16 ∧
    (sampledBits idleObject.clk idleObject.mosi (Transmit idleObject Intensity 15).2).length = 16 ∧
    (∀ k, k < 16 → (sampledBits idleObject.clk idleObject.mosi
        (Transmit idleObject Intensity 15).2)[k]? =
        some (((Intensity <<< 8) ||| (15 : uint8_t).val).testBit (15 - k))) ∧
    wordOf (sampledBits idleObject.clk idleObject.mosi (Transmit idleObject Intensity 15).2) =
      (Intensity <<< 8) ||| (15 : uint8_t).val :=
  ⟨rfl, by decide, Transmit_word_msb_first idleObject Intensity 15 rfl (by decide)⟩

/-- C2: in both builds the trace of one `Transmit` is the chip-select write to
the selected level (low), then events none of which writes chip-select, then
the chip-select write back to the idle level (high); so every clock write, data
write and peripheral write lies strictly between the two chip-select events. -/
theorem Transmit_chip_select_brackets (s : matrix_8) (a : Address) (d : uint8_t) :
    (∃ mid, (Transmit s a d).2 = PinEvent.cs false :: (mid ++ [PinEvent.cs true]) ∧
      ∀ e ∈ mid, e.isCs = false) ∧
    (∃ mid, (Transmit_HardwareSPI s a d).2 = PinEvent.cs false :: (mid ++ [PinEvent.cs true]) ∧
      ∀ e ∈ mid, e.isCs = false) := by
  constructor
  · exact ⟨_, Transmit_events s a d, loopEvents_not_cs _ _ _⟩
  · refine ⟨[PinEvent.spi_write (Transmit.temp a d)], ?_, ?_⟩
    · simp [Transmit_HardwareSPI, Run.andThen, write_cs, spi_write]
    · intro e he
      simp only [List.mem_singleton] at he
      subst he
      rfl

/-! ## C3 .. C10: the register writes of the public operations -/

/-- C3: on an idle bus, `SendBuffer` emits exactly 8 register writes, the
`i`-th (`i = 1..8`) to address `i` with data `buffer[i-1]`, so the addresses
are 1, 2, ..., 8 in strictly ascending order. -/
theorem SendBuffer_rows_ascending (s : matrix_8) (hs : BusIdle s) :
    transactions s (SendBuffer s).2 =
      [some ⟨1, (s.buffer 0).val⟩, some ⟨2, (s.buffer 1).val⟩, some ⟨3, (s.buffer 2).val⟩,
       some ⟨4, (s.buffer 3).val⟩, some ⟨5, (s.buffer 4).val⟩, some ⟨6, (s.buffer 5).val⟩,
       some ⟨7, (s.buffer 6).val⟩, some ⟨8, (s.buffer 7).val⟩] :=
  (Sends_SendBuffer s hs).transactions_eq

/-- C3 on the idle object holding the row bytes 10, 20, ..., 80. -/
theorem SendBuffer_rows_ascending_witness :
    BusIdle { idleObject with buffer := ![10, 20, 30, 40, 50, 60, 70, 80] } ∧
    transactions { idleObject with buffer := ![10, 20, 30, 40, 50, 60, 70, 80] }
        (SendBuffer { idleObject with buffer := ![10, 20, 30, 40, 50, 60, 70, 80] }).2 =
      [some ⟨1, 10⟩, some ⟨2, 20⟩, some ⟨3, 30⟩, some ⟨4, 40⟩,
       some ⟨5, 50⟩, some ⟨6, 60⟩, some ⟨7, 70⟩, some ⟨8, 80⟩] :=
  ⟨⟨rfl, rfl⟩,
    SendBuffer_rows_ascending { idleObject with buffer := ![10, 20, 30, 40, 50, 60, 70, 80] }
      ⟨rfl, rfl⟩⟩

/-- C4: on an idle bus, `Set_Shutdown(m)` emits exactly one register write, to
the Shutdown register (address 12), with the inverted boolean as data (0 for
`true`, 1 for `false`), and `is_In_Shutdown()` returns `m` afterwards. -/
theorem Set_Shutdown_inverted (s : matrix_8) (m : Bool) (hs : BusIdle s) :
    transactions s (Set_Shutdown s m).2 = [some ⟨12, if m then 0 else 1⟩] ∧
    is_In_Shutdown (Set_Shutdown s m).1 = m := by
  constructor
  · rw [(Sends_Set_Shutdown s m hs).transactions_eq]
    cases m <;> rfl
  · rfl

/-- C4 at `Set_Shutdown(true)` on the idle object. -/
theorem Set_Shutdown_inverted_witness :
    BusIdle idleObject ∧
    transactions idleObject (Set_Shutdown idleObject true).2 = [some ⟨12, 0⟩] ∧
    is_In_Shutdown (Set_Shutdown idleObject true).1 = true :=
  ⟨⟨rfl, rfl⟩, Set_Shutdown_inverted idleObject true ⟨rfl, rfl⟩⟩

/-- C5: on an idle bus `Init_Setting` emits exactly 5 register writes, in the
order DecodeMode (9) data 0, DisplayTest (15) data 0, Shutdown (12) data 1,
Intensity (10) data 15, ScanLimit (11) data 7; the constructor, run on any
storage, emits exactly this sequence and nothing else. -/
theorem Init_Setting_sequence (s raw : matrix_8) (hs : BusIdle s) :
    transactions s (Init_Setting s).2 =
      [some ⟨9, 0⟩, some ⟨15, 0⟩, some ⟨12, 1⟩, some ⟨10, 15⟩, some ⟨11, 7⟩] ∧
    transactions raw (matrix_8.new raw).2 =
      [some ⟨9, 0⟩, some ⟨15, 0⟩, some ⟨12, 1⟩, some ⟨10, 15⟩, some ⟨11, 7⟩] :=
  ⟨(Sends_Init_Setting s hs).transactions_eq, (Sends_new raw).transactions_eq⟩

/-- C5 on the idle object, with the constructor run on storage whose pins are
all high and whose flags are set. -/
theorem Init_Setting_sequence_witness :
    BusIdle idleObject ∧
    transactions idleObject (Init_Setting idleObject).2 =
      [some ⟨9, 0⟩, some ⟨15, 0⟩, some ⟨12, 1⟩, some ⟨10, 15⟩, some ⟨11, 7⟩] ∧
    transactions
        { mosi := true, clk := true, cs := true, inDisplayTest := true, inShutdown := true,
          buffer := fun _ => 255 }
        (matrix_8.new
          { mosi := true, clk := true, cs := true, inDisplayTest := true, inShutdown := true,
            buffer := fun _ => 255 }).2 =
      [some ⟨9, 0⟩, some ⟨15, 0⟩, some ⟨12, 1⟩, some ⟨10, 15⟩, some ⟨11, 7⟩] :=
  ⟨⟨rfl, rfl⟩, Init_Setting_sequence idleObject _ ⟨rfl, rfl⟩⟩

/-- C6: on an idle bus, for every level in `[0, 1]` (an exact rational),
`Set_Intensity(level)` emits exactly one register write, to the Intensity
register (address 10), with data `floor(15 * level)`, and leaves the buffer and
both mode flags unchanged; level 1 gives data 15, level 0 gives 0 and level
1/2 gives 7. -/
theorem Set_Intensity_quantized (s : matrix_8) (level : ℚ) (hs : BusIdle s)
    (h0 : 0 ≤ level) (h1 : level ≤ 1) :
    transactions s (Set_Intensity s level).2 = [some ⟨10, ⌊15 * level⌋₊⟩] ∧
    (Set_Intensity s level).1.buffer = s.buffer ∧
    (Set_Intensity s level).1.inDisplayTest = s.inDisplayTest ∧
    (Set_Intensity s level).1.inShutdown = s.inShutdown ∧
    transactions s (Set_Intensity s 1).2 = [some ⟨10, 15⟩] ∧
    transactions s (Set_Intensity s 0).2 = [some ⟨10, 0⟩] ∧
    transactions s (Set_Intensity s (1 / 2)).2 = [some ⟨10, 7⟩] := by
  have key : ∀ x : ℚ, 0 ≤ x → x ≤ 1 →
      transactions s (Set_Intensity s x).2 = [some ⟨10, ⌊15 * x⌋₊⟩] := by
    intro x hx0 hx1
    rw [(Sends_Set_Intensity s x hs).transactions_eq,
      float_to_uint8_floor (15 * x) (by linarith) (by linarith)]
  have f1 : ⌊(15 * 1 : ℚ)⌋₊ = 15 := by
    rw [Nat.floor_eq_iff (by norm_num)]; norm_num
  have f0 : ⌊(15 * 0 : ℚ)⌋₊ = 0 := by
    rw [Nat.floor_eq_iff (by norm_num)]; norm_num
  have fh : ⌊(15 * (1 / 2) : ℚ)⌋₊ = 7 := by
    rw [Nat.floor_eq_iff (by norm_num)]; norm_num
  refine ⟨key level h0 h1, ?_, ?_, ?_, ?_, ?_, ?_⟩
  · rw [Set_Intensity, Transmit_state]
  · rw [Set_Intensity, Transmit_state]
  · rw [Set_Intensity, Transmit_state]
  · rw [key 1 (by norm_num) (by norm_num), f1]
  · rw [key 0 (by norm_num) (by norm_num), f0]
  · rw [key (1 / 2) (by norm_num) (by norm_num), fh]

/-- C6 at level 1/3 on the idle object: `floor(15/3) = 5`. -/
theorem Set_Intensity_quantized_witness :
    BusIdle idleObject ∧ (0 : ℚ) ≤ 1 / 3 ∧ (1 / 3 : ℚ) ≤ 1 ∧
    transactions idleObject (Set_Intensity idleObject (1 / 3)).2 =
      [some ⟨10, ⌊(15 * (1 / 3) : ℚ)⌋₊⟩] :=
  ⟨⟨rfl, rfl⟩, by norm_num, by norm_num,
    (Set_Intensity_quantized idleObject (1 / 3) ⟨rfl, rfl⟩ (by norm_num) (by norm_num)).1⟩

/-- C7: constructing the controller on any storage and then displaying the
frame `f` emits exactly 13 register writes: the 5 of the initialisation, then
8 to the addresses 1..8 in order with data `f[0]..f[7]`; the buffer is `f`
afterwards. `HelloWorld()` is this display with `f = [0,4,98,2,2,98,4,0]`. -/
theorem construct_then_display (raw : matrix_8) (f : frame) :
    transactions raw ((matrix_8.new raw).andThen fun s => operator_lshift s f).2 =
      [some ⟨9, 0⟩, some ⟨15, 0⟩, some ⟨12, 1⟩, some ⟨10, 15⟩, some ⟨11, 7⟩,
       some ⟨1, (f 0).val⟩, some ⟨2, (f 1).val⟩, some ⟨3, (f 2).val⟩, some ⟨4, (f 3).val⟩,
       some ⟨5, (f 4).val⟩, some ⟨6, (f 5).val⟩, some ⟨7, (f 6).val⟩, some ⟨8, (f 7).val⟩] ∧
    (transactions raw ((matrix_8.new raw).andThen fun s => operator_lshift s f).2).length = 13 ∧
    ((matrix_8.new raw).andThen fun s => operator_lshift s f).1.buffer = f ∧
    (∀ s, HelloWorld s = operator_lshift s ![0, 4, 98, 2, 2, 98, 4, 0]) ∧
    transactions raw ((matrix_8.new raw).andThen HelloWorld).2 =
      [some ⟨9, 0⟩, some ⟨15, 0⟩, some ⟨12, 1⟩, some ⟨10, 15⟩, some ⟨11, 7⟩,
       some ⟨1, 0⟩, some ⟨2, 4⟩, some ⟨3, 98⟩, some ⟨4, 2⟩,
       some ⟨5, 2⟩, some ⟨6, 98⟩, some ⟨7, 4⟩, some ⟨8, 0⟩] := by
  have hN := Sends_new raw
  have hD := fun g : frame =>
    Sends.andThen (f := fun s => operator_lshift s g) hN (Sends_operator_lshift _ g hN.1)
  have e := (hD f).transactions_eq
  have hH : HelloWorld = fun s => operator_lshift s ![0, 4, 98, 2, 2, 98, 4, 0] :=
    funext fun _ => rfl
  refine ⟨e, ?_, ?_, fun _ => rfl, ?_⟩
  · rw [e]; rfl
  · rw [Run.andThen_fst, operator_lshift_state]
  · rw [hH]
    exact (hD ![0, 4, 98, 2, 2, 98, 4, 0]).transactions_eq

/-- C8: `ClearBuffer` leaves all 8 buffer bytes 0, performs no pin event (hence
no register write) and leaves both mode flags unchanged. -/
theorem ClearBuffer_silent (s : matrix_8) :
    (∀ i, (ClearBuffer s).1.buffer i = 0) ∧
    (ClearBuffer s).2 = [] ∧
    transactions s (ClearBuffer s).2 = [] ∧
    is_In_MatrixTest (ClearBuffer s).1 = is_In_MatrixTest s ∧
    is_In_Shutdown (ClearBuffer s).1 = is_In_Shutdown s :=
  ⟨fun _ => rfl, rfl, rfl, rfl, rfl⟩

/-- C9: on an idle bus, displaying `f` twice in a row emits the same 8 register
writes both times and the object after the second display equals the object
after the first; the writes of a display depend only on `f` (the same from any
other idle object), and `SendBuffer` leaves the buffer unchanged. -/
theorem display_repeatable (s s' : matrix_8) (f : frame) (hs : BusIdle s) (hs' : BusIdle s') :
    transactions (operator_lshift s f).1 (operator_lshift (operator_lshift s f).1 f).2 =
      transactions s (operator_lshift s f).2 ∧
    (transactions s (operator_lshift s f).2).length = 8 ∧
    (operator_lshift (operator_lshift s f).1 f).1 = (operator_lshift s f).1 ∧
    transactions s' (operator_lshift s' f).2 = transactions s (operator_lshift s f).2 ∧
    (SendBuffer s).1.buffer = s.buffer := by
  have h1 := Sends_operator_lshift s f hs
  have h2 := Sends_operator_lshift _ f h1.1
  have h3 := Sends_operator_lshift s' f hs'
  refine ⟨?_, ?_, ?_, ?_, ?_⟩
  · rw [h1.transactions_eq, h2.transactions_eq]
  · rw [h1.transactions_eq]; rfl
  · rw [operator_lshift_state, operator_lshift_state]
  · rw [h1.transactions_eq, h3.transactions_eq]
  · rw [SendBuffer_state]

/-- C9 with the frame of `HelloWorld`, from the idle object and from an idle
object with both flags set and a full buffer. -/
theorem display_repeatable_witness :
    BusIdle idleObject ∧
    BusIdle { idleObject with inDisplayTest := true, inShutdown := true, buffer := fun _ => 255 } ∧
    (operator_lshift (operator_lshift idleObject ![0, 4, 98, 2, 2, 98, 4, 0]).1
        ![0, 4, 98, 2, 2, 98, 4, 0]).1 =
      (operator_lshift idleObject ![0, 4, 98, 2, 2, 98, 4, 0]).1 :=
  ⟨⟨rfl, rfl⟩, ⟨rfl, rfl⟩,
    (display_repeatable idleObject
      { idleObject with inDisplayTest := true, inShutdown := true, buffer := fun _ => 255 }
      ![0, 4, 98, 2, 2, 98, 4, 0] ⟨rfl, rfl⟩ ⟨rfl, rfl⟩).2.2.1⟩

/-- C10: on an idle bus, `Set_MatrixTest(m)` emits exactly one register write,
to the DisplayTest register (address 15), with the boolean itself as data (1
for `true`, 0 for `false`), and `is_In_MatrixTest()` returns `m` afterwards. -/
theorem Set_MatrixTest_direct (s : matrix_8) (m : Bool) (hs : BusIdle s) :
    transactions s (Set_MatrixTest s m).2 = [some ⟨15, if m then 1 else 0⟩] ∧
    is_In_MatrixTest (Set_MatrixTest s m).1 = m := by
  constructor
  · rw [(Sends_Set_MatrixTest s m hs).transactions_eq]
    cases m <;> rfl
  · rfl

/-- C10 at `Set_MatrixTest(true)` on the idle object. -/
theorem Set_MatrixTest_direct_witness :
    BusIdle idleObject ∧
    transactions idleObject (Set_MatrixTest idleObject true).2 = [some ⟨15, 1⟩] ∧
    is_In_MatrixTest (Set_MatrixTest idleObject true).1 = true :=
  ⟨⟨rfl, rfl⟩, Set_MatrixTest_direct idleObject true ⟨rfl, rfl⟩⟩

/-! ## The object left by each operation -/

theorem Set_MatrixTest_state (s : matrix_8) (mode : Bool) :
    (Set_MatrixTest s mode).1 =
      { s with mosi := (Transmit.temp DisplayTest (bool_to_uint8 mode)).testBit 0,
               clk := false, cs := true, inDisplayTest := mode } := by
  rw [Set_MatrixTest, Run.andThen_fst, Transmit_state]
  rfl

theorem Set_Shutdown_state (s : matrix_8) (mode : Bool) :
    (Set_Shutdown s mode).1 =
      { s with mosi := (Transmit.temp Shutdown (bool_to_uint8 (!mode))).testBit 0,
               clk := false, cs := true, inShutdown := mode } := by
  rw [Set_Shutdown, Run.andThen_fst, Transmit_state]
  rfl

theorem Set_Intensity_state (s : matrix_8) (intensity : ℚ) :
    (Set_Intensity s intensity).1 =
      { s with mosi := (Transmit.temp Intensity (float_to_uint8 (15 * intensity))).testBit 0,
               clk := false, cs := true } := by
  rw [Set_Intensity, Transmit_state]

theorem Init_Setting_state (s : matrix_8) :
    (Init_Setting s).1 =
      { s with mosi := true, clk := false, cs := true,
               inDisplayTest := false, inShutdown := false } := by
  have h2 : (Set_MatrixTest (Transmit s DecodeMode 0x0).1 false).1 =
      { s with mosi := (Transmit.temp DisplayTest (bool_to_uint8 false)).testBit 0,
               clk := false, cs := true, inDisplayTest := false } := by
    rw [Set_MatrixTest_state, Transmit_state]
  have h3 : (Set_Shutdown (Set_MatrixTest (Transmit s DecodeMode 0x0).1 false).1 false).1 =
      { s with mosi := (Transmit.temp Shutdown (bool_to_uint8 (!false))).testBit 0,
               clk := false, cs := true, inDisplayTest := false, inShutdown := false } := by
    rw [Set_Shutdown_state, h2]
  have h4 : (Set_Intensity
        (Set_Shutdown (Set_MatrixTest (Transmit s DecodeMode 0x0).1 false).1 false).1 1).1 =
      { s with mosi := (Transmit.temp Intensity (float_to_uint8 (15 * 1))).testBit 0,
               clk := false, cs := true, inDisplayTest := false, inShutdown := false } := by
    rw [Set_Intensity_state, h3]
  have h5 : (Transmit.temp ScanLimit 0b111).testBit 0 = true := by decide
  rw [Init_Setting, Run.andThen_fst, Run.andThen_fst, Run.andThen_fst, Run.andThen_fst, h4,
    Transmit_state, h5]

/-! ## C11, C12: the mode flags and re-initialisation -/

/-- C11: `Set_MatrixTest` leaves the shutdown flag and the buffer unchanged,
`Set_Shutdown` leaves the test-mode flag and the buffer unchanged; so from
every object `Set_MatrixTest(t); Set_Shutdown(sh)` ends with
`is_In_MatrixTest() = t` and `is_In_Shutdown() = sh`, and started on a freshly
constructed object this gives a reachable object for each of the four flag
combinations. -/
theorem mode_flags_independent (s raw : matrix_8) (t sh : Bool) :
    is_In_Shutdown (Set_MatrixTest s t).1 = is_In_Shutdown s ∧
    (Set_MatrixTest s t).1.buffer = s.buffer ∧
    is_In_MatrixTest (Set_Shutdown s sh).1 = is_In_MatrixTest s ∧
    (Set_Shutdown s sh).1.buffer = s.buffer ∧
    is_In_MatrixTest (Set_Shutdown (Set_MatrixTest s t).1 sh).1 = t ∧
    is_In_Shutdown (Set_Shutdown (Set_MatrixTest s t).1 sh).1 = sh ∧
    Reachable (Set_Shutdown (Set_MatrixTest (matrix_8.new raw).1 t).1 sh).1 := by
  refine ⟨?_, ?_, ?_, ?_, ?_, ?_, ?_⟩
  · rw [is_In_Shutdown, Set_MatrixTest_state]; rfl
  · rw [Set_MatrixTest_state]
  · rw [is_In_MatrixTest, Set_Shutdown_state]; rfl
  · rw [Set_Shutdown_state]
  · rw [is_In_MatrixTest, Set_Shutdown_state, Set_MatrixTest_state]
  · rw [is_In_Shutdown, Set_Shutdown_state]
  · exact Reachable.Set_Shutdown sh (Reachable.Set_MatrixTest t (Reachable.new raw))

/-- C12: `Init_Setting` ends with test mode and shutdown mode both `false` and
leaves the buffer unchanged; run a second time it leaves the same object, and
on an idle bus the second run emits the same five register writes as the
first. -/
theorem Init_Setting_idempotent (s : matrix_8) (hs : BusIdle s) :
    is_In_MatrixTest (Init_Setting s).1 = false ∧
    is_In_Shutdown (Init_Setting s).1 = false ∧
    (Init_Setting s).1.buffer = s.buffer ∧
    (Init_Setting (Init_Setting s).1).1 = (Init_Setting s).1 ∧
    transactions (Init_Setting s).1 (Init_Setting (Init_Setting s).1).2 =
      transactions s (Init_Setting s).2 ∧
    transactions s (Init_Setting s).2 =
      [some ⟨9, 0⟩, some ⟨15, 0⟩, some ⟨12, 1⟩, some ⟨10, 15⟩, some ⟨11, 7⟩] := by
  have h1 := Sends_Init_Setting s hs
  have h2 := Sends_Init_Setting _ h1.1
  refine ⟨?_, ?_, ?_, ?_, ?_, h1.transactions_eq⟩
  · rw [is_In_MatrixTest, Init_Setting_state]
  · rw [is_In_Shutdown, Init_Setting_state]
  · rw [Init_Setting_state]
  · rw [Init_Setting_state, Init_Setting_state]
  · rw [h1.transactions_eq, h2.transactions_eq]

/-- C12 on an idle object with both flags set and a full buffer. -/
theorem Init_Setting_idempotent_witness :
    BusIdle { idleObject with inDisplayTest := true, inShutdown := true, buffer := fun _ => 255 } ∧
    is_In_MatrixTest (Init_Setting
      { idleObject with inDisplayTest := true, inShutdown := true,
                        buffer := fun _ => 255 }).1 = false :=
  ⟨⟨rfl, rfl⟩,
    (Init_Setting_idempotent
      { idleObject with inDisplayTest := true, inShutdown := true, buffer := fun _ => 255 }
      ⟨rfl, rfl⟩).1⟩

/-! ## C13: the intensity byte outside `[0, 1]` -/

theorem roundHalfEven_nonneg (q : ℚ) (h : 0 ≤ q) : 0 ≤ roundHalfEven q := by
  have hf : 0 ≤ ⌊q⌋ := Int.floor_nonneg.mpr h
  unfold roundHalfEven
  split_ifs <;> omega

theorem float_round_nonneg (q : ℚ) (h : 0 ≤ q) : 0 ≤ float_round q := by
  have hp : (0 : ℚ) < 2 ^ float_ulp_exponent q := zpow_pos (by norm_num) _
  have hr := roundHalfEven_nonneg (q / 2 ^ float_ulp_exponent q) (div_nonneg h hp.le)
  have hr' : (0 : ℚ) ≤ (roundHalfEven (q / 2 ^ float_ulp_exponent q) : ℚ) := by
    exact_mod_cast hr
  exact mul_nonneg hr' hp.le

theorem float_ulp_exponent_of_mem (q : ℚ) (k : Int) (hk : -126 ≤ k)
    (h1 : (2 : ℚ) ^ k ≤ q) (h2 : q < (2 : ℚ) ^ (k + 1)) :
    float_ulp_exponent q = k - 23 := by
  have hq : 0 < q := lt_of_lt_of_le (zpow_pos (by norm_num) k) h1
  have hlo : k ≤ Int.log 2 q := by
    rw [← Int.zpow_le_iff_le_log (by norm_num) hq]
    exact_mod_cast h1
  have hhi : Int.log 2 q < k + 1 := by
    rw [← Int.lt_zpow_iff_log_lt (by norm_num) hq]
    exact_mod_cast h2
  have e : Int.log 2 q = k := by omega
  rw [float_ulp_exponent, abs_of_pos hq, e, max_eq_left hk]

theorem float_ulp_exponent_16_32 (q : ℚ) (h1 : 16 ≤ q) (h2 : q < 32) :
    float_ulp_exponent q = -19 :=
  float_ulp_exponent_of_mem q 4 (by decide) (by norm_num; exact h1) (by norm_num; exact h2)

theorem float_round_15 : float_round (15 * 1) = 15 * 1 := by
  have e := float_ulp_exponent_of_mem (15 * 1) 3 (by decide) (by norm_num) (by norm_num)
  have hfl : ⌊(15 * 1 / 2 ^ (3 - 23 : Int) : ℚ)⌋ = 15728640 := by
    rw [Int.floor_eq_iff]; norm_num
  have hr : roundHalfEven (15 * 1 / 2 ^ (3 - 23 : Int)) = 15728640 := by
    rw [roundHalfEven, hfl]; norm_num
  rw [float_round, e, hr]
  norm_num

theorem float_round_30 : float_round (15 * 2) = 30 := by
  have e := float_ulp_exponent_16_32 (15 * 2) (by norm_num) (by norm_num)
  have hfl : ⌊(15 * 2 / 2 ^ (-19 : Int) : ℚ)⌋ = 15728640 := by
    rw [Int.floor_eq_iff]; norm_num
  have hr : roundHalfEven (15 * 2 / 2 ^ (-19 : Int)) = 15728640 := by
    rw [roundHalfEven, hfl]; norm_num
  rw [float_round, e, hr]
  norm_num

theorem float_round_1_4 : float_round (15 * (11744051 / 8388608)) = 21 := by
  have e := float_ulp_exponent_16_32 (15 * (11744051 / 8388608)) (by norm_num) (by norm_num)
  have hfl : ⌊(15 * (11744051 / 8388608) / 2 ^ (-19 : Int) : ℚ)⌋ = 11010047 := by
    rw [Int.floor_eq_iff]; norm_num
  have hr : roundHalfEven (15 * (11744051 / 8388608) / 2 ^ (-19 : Int)) = 11010048 := by
    rw [roundHalfEven, hfl]; norm_num
  rw [float_round, e, hr]
  norm_num

theorem Sends_Set_Intensity_float (s : matrix_8) (intensity : ℚ) (hs : BusIdle s) :
    Sends s (Set_Intensity_float s intensity)
      [some ⟨10, (float_to_uint8 (float_round (15 * intensity))).val⟩] :=
  Sends_Transmit s Intensity _ hs (by decide)

theorem Set_Intensity_float_of_exact (s : matrix_8) (level : ℚ)
    (h : float_round (15 * level) = 15 * level) :
    Set_Intensity_float s level = Set_Intensity s level := by
  show Transmit s Intensity (float_to_uint8 (float_round (15 * level))) =
    Transmit s Intensity (float_to_uint8 (15 * level))
  rw [h]

/-- The call `Set_Intensity()` of `Init_Setting`, level `1.f`, is the same
under both readings of the product: 15 is a single-precision number. -/
theorem Set_Intensity_float_one (s : matrix_8) :
    Set_Intensity_float s 1 = Set_Intensity s 1 :=
  Set_Intensity_float_of_exact s 1 float_round_15

theorem Set_Intensity_float_sends (s : matrix_8) (level : ℚ) (hs : BusIdle s)
    (h0 : 0 ≤ level) (h1 : float_round (15 * level) < 256) :
    transactions s (Set_Intensity_float s level).2 =
      [some ⟨10, ⌊float_round (15 * level)⌋₊⟩] := by
  rw [(Sends_Set_Intensity_float s level hs).transactions_eq,
    float_to_uint8_floor _ (float_round_nonneg _ (by linarith)) h1]

/-- C13, refuted as stated: at level 2 the data byte sent to the Intensity
register is 30, not `30 mod 16 = 14`, whether the product is taken exactly or
rounded to single precision; so the byte is not always in `0..15`. -/
theorem Set_Intensity_not_four_bits :
    transactions idleObject (Set_Intensity idleObject 2).2 = [some ⟨10, 30⟩] ∧
    (¬ ∀ level : ℚ, ∃ d, transactions idleObject (Set_Intensity idleObject level).2 =
        [some ⟨10, d⟩] ∧ d ≤ 15) ∧
    transactions idleObject (Set_Intensity_float idleObject 2).2 = [some ⟨10, 30⟩] ∧
    (¬ ∀ level : ℚ, ∃ d, transactions idleObject (Set_Intensity_float idleObject level).2 =
        [some ⟨10, d⟩] ∧ d ≤ 15) := by
  have h30 : ⌊(15 * 2 : ℚ)⌋₊ = 30 := by
    rw [Nat.floor_eq_iff (by norm_num)]; norm_num
  have h30' : ⌊(30 : ℚ)⌋₊ = 30 := by
    rw [Nat.floor_eq_iff (by norm_num)]; norm_num
  have h : transactions idleObject (Set_Intensity idleObject 2).2 = [some ⟨10, 30⟩] := by
    rw [(Sends_Set_Intensity idleObject 2 ⟨rfl, rfl⟩).transactions_eq,
      float_to_uint8_floor (15 * 2) (by norm_num) (by norm_num), h30]
  have hf : transactions idleObject (Set_Intensity_float idleObject 2).2 = [some ⟨10, 30⟩] := by
    rw [Set_Intensity_float_sends idleObject 2 ⟨rfl, rfl⟩ (by norm_num)
      (by rw [float_round_30]; norm_num), float_round_30, h30']
  refine ⟨h, fun hall => ?_, hf, fun hall => ?_⟩
  · obtain ⟨d, hd, hle⟩ := hall 2
    rw [h] at hd
    injection hd with hd _
    injection hd with hd
    injection hd with _ hd
    omega
  · obtain ⟨d, hd, hle⟩ := hall 2
    rw [hf] at hd
    injection hd with hd _
    injection hd with hd
    injection hd with _ hd
    omega

/-- C13, amended: on an idle bus, for every level `≥ 0` whose single-precision
product `p = float(15 * level)` is below 256, the data byte sent to the
Intensity register is `floor(p)` as a whole byte, not reduced to 4 bits; it is
in `0..15` exactly when `p < 16`. Where the product needs no rounding the byte
is `floor(15 * level)`. Level 2 sends 30; the `float` nearest to 1.4,
`11744051 / 2^23`, sends 21 although `floor(15 * level)` is 20 there. -/
theorem Set_Intensity_float_byte (s : matrix_8) (level : ℚ) (hs : BusIdle s)
    (h0 : 0 ≤ level) (h1 : float_round (15 * level) < 256) :
    transactions s (Set_Intensity_float s level).2 =
      [some ⟨10, ⌊float_round (15 * level)⌋₊⟩] ∧
    ⌊float_round (15 * level)⌋₊ < 256 ∧
    (⌊float_round (15 * level)⌋₊ ≤ 15 ↔ float_round (15 * level) < 16) ∧
    (float_round (15 * level) = 15 * level →
      transactions s (Set_Intensity_float s level).2 = [some ⟨10, ⌊15 * level⌋₊⟩]) ∧
    transactions s (Set_Intensity_float s 2).2 = [some ⟨10, 30⟩] ∧
    transactions s (Set_Intensity_float s (11744051 / 8388608)).2 = [some ⟨10, 21⟩] ∧
    ⌊(15 * (11744051 / 8388608) : ℚ)⌋₊ = 20 := by
  have hnn : (0 : ℚ) ≤ float_round (15 * level) := float_round_nonneg _ (by linarith)
  have hmain := Set_Intensity_float_sends s level hs h0 h1
  have h30 : ⌊(30 : ℚ)⌋₊ = 30 := by
    rw [Nat.floor_eq_iff (by norm_num)]; norm_num
  have h21 : ⌊(21 : ℚ)⌋₊ = 21 := by
    rw [Nat.floor_eq_iff (by norm_num)]; norm_num
  refine ⟨hmain, ?_, ?_, ?_, ?_, ?_, ?_⟩
  · rw [Nat.floor_lt hnn]
    exact_mod_cast h1
  · rw [← Nat.lt_succ_iff, Nat.floor_lt hnn]
    constructor
    · intro h
      exact_mod_cast h
    · intro h
      exact_mod_cast h
  · intro he
    rw [hmain, he]
  · rw [Set_Intensity_float_sends s 2 hs (by norm_num) (by rw [float_round_30]; norm_num),
      float_round_30, h30]
  · rw [Set_Intensity_float_sends s (11744051 / 8388608) hs (by norm_num)
      (by rw [float_round_1_4]; norm_num), float_round_1_4, h21]
  · rw [Nat.floor_eq_iff (by norm_num)]; norm_num

/-- C13, amended, at the `float` nearest to 1.4 on the idle object: the
single-precision product is 21 and the byte is 21. -/
theorem Set_Intensity_float_byte_witness :
    BusIdle idleObject ∧ (0 : ℚ) ≤ 11744051 / 8388608 ∧
    float_round (15 * (11744051 / 8388608)) < 256 ∧
    transactions idleObject (Set_Intensity_float idleObject (11744051 / 8388608)).2 =
      [some ⟨10, ⌊float_round (15 * (11744051 / 8388608))⌋₊⟩] :=
  ⟨⟨rfl, rfl⟩, by norm_num, by rw [float_round_1_4]; norm_num,
    (Set_Intensity_float_byte idleObject (11744051 / 8388608) ⟨rfl, rfl⟩ (by norm_num)
      (by rw [float_round_1_4]; norm_num)).1⟩

/-! ## C14: the order of the pin events of one bit and the half bit-period -/

theorem loopEvents_window (temp delay n k : Nat) (rest : List PinEvent) (hk : k < n) :
    ((loopEvents temp delay n ++ rest).drop (5 * k)).take 5 =
      [PinEvent.mosi (temp.testBit (n - 1 - k)), PinEvent.clk true, PinEvent.wait_ns delay,
       PinEvent.clk false, PinEvent.wait_ns delay] := by
  induction n generalizing k with
  | zero => omega
  | succ n ih =>
    cases k with
    | zero => simp [loopEvents]
    | succ k =>
      have e : 5 * (k + 1) = 5 + 5 * k := by ring
      have e2 : n + 1 - 1 - (k + 1) = n - 1 - k := by omega
      rw [e, e2, ← ih k (by omega), ← List.drop_drop]
      rfl

theorem dataWrittenOnlyWhileClockLow_bit (b : Bool) (d : Nat) (es : List PinEvent) :
    dataWrittenOnlyWhileClockLow false
        (PinEvent.mosi b :: PinEvent.clk true :: PinEvent.wait_ns d ::
          PinEvent.clk false :: PinEvent.wait_ns d :: es) =
      dataWrittenOnlyWhileClockLow false es := rfl

theorem dataWrittenOnlyWhileClockLow_loopEvents (temp delay n : Nat) (rest : List PinEvent) :
    dataWrittenOnlyWhileClockLow false (loopEvents temp delay n ++ rest) =
      dataWrittenOnlyWhileClockLow false rest := by
  induction n with
  | zero => rfl
  | succ n ih =>
    simp only [loopEvents, List.cons_append, dataWrittenOnlyWhileClockLow_bit, ih]

theorem delay_eq (f : Nat) (hf : 7630 ≤ f) : Transmit.delay f = 1000000000 / f / 2 := by
  have h := Nat.div_le_div_left (a := 1000000000) hf (by decide)
  have h' : 1000000000 / 7630 = 131061 := by decide
  rw [h'] at h
  have h2 : 1000000000 / f / 2 < 65536 := by omega
  exact Nat.mod_eq_of_lt h2

theorem Reachable_SPI_Freq {s : matrix_8} (h : Reachable s) : s.SPI_Freq = 1000000 := by
  induction h with
  | new raw => rw [new_fst, Init_Setting_state]
  | Init_Setting _ ih => rw [Init_Setting_state]; exact ih
  | Set_Intensity x _ ih => rw [Set_Intensity_state]; exact ih
  | Set_MatrixTest m _ ih => rw [Set_MatrixTest_state]; exact ih
  | Set_Shutdown m _ ih => rw [Set_Shutdown_state]; exact ih
  | ClearBuffer _ ih => exact ih
  | SendBuffer _ ih => rw [SendBuffer_state]; exact ih
  | operator_lshift d _ ih => rw [operator_lshift_state]; exact ih
  | HelloWorld _ ih => rw [HelloWorld, operator_lshift_state]; exact ih
  | assign_buffer d _ ih => exact ih

/-- C14: with the clock low on entry, the trace of one simulated-SPI
`Transmit` is the chip-select write followed, for each bit `k = 0..15`, by
exactly: the write of bit `15 - k` to the data line, clock high, wait, clock
low, wait; so the data line is only written while the clock is low. Both waits
are passed `1e9 / SPI_Freq / 2` ns (its integer part), for every bus frequency
from 7630 Hz up, where the half period fits the 16-bit `delay`. Every object a
program can hold has the clock low and `SPI_Freq = 1000000`, which `Transmit`
leaves unchanged, so every call waits 500 ns. -/
theorem Transmit_bit_timing (s r : matrix_8) (a : Address) (d : uint8_t)
    (hclk : s.clk = false) (hf : 7630 ≤ s.SPI_Freq) :
    (Transmit s a d).2.length = 1 + 5 * 16 + 1 ∧
    (∀ k, k < 16 → (((Transmit s a d).2.drop 1).drop (5 * k)).take 5 =
      [PinEvent.mosi ((Transmit.temp a d).testBit (15 - k)), PinEvent.clk true,
       PinEvent.wait_ns (1000000000 / s.SPI_Freq / 2), PinEvent.clk false,
       PinEvent.wait_ns (1000000000 / s.SPI_Freq / 2)]) ∧
    dataWrittenOnlyWhileClockLow s.clk (Transmit s a d).2 = true ∧
    (Transmit s a d).1.clk = false ∧
    (Transmit s a d).1.SPI_Freq = s.SPI_Freq ∧
    Transmit.delay 1000000 = 500 ∧
    (Reachable r → r.clk = false ∧ r.SPI_Freq = 1000000 ∧
      Transmit.delay r.SPI_Freq = 1000000000 / 1000000 / 2) := by
  refine ⟨?_, ?_, ?_, ?_, ?_, by decide, fun hr => ?_⟩
  · rw [Transmit_events]
    simp [loopEvents]
  · intro k hk
    rw [Transmit_events, delay_eq _ hf]
    exact loopEvents_window _ _ 16 k _ hk
  · rw [Transmit_events, hclk]
    exact (dataWrittenOnlyWhileClockLow_loopEvents _ _ 16 _).trans rfl
  · rw [Transmit_state]
  · rw [Transmit_state]
  · refine ⟨(Reachable_busIdle hr).2, Reachable_SPI_Freq hr, ?_⟩
    rw [Reachable_SPI_Freq hr]
    decide

/-- C14 at `Transmit(Intensity, 15)` on the idle object (1 MHz): both waits of
every bit are passed 500. -/
theorem Transmit_bit_timing_witness :
    idleObject.clk = false ∧ 7630 ≤ idleObject.SPI_Freq ∧
    dataWrittenOnlyWhileClockLow idleObject.clk (Transmit idleObject Intensity 15).2 = true ∧
    (∀ k, k < 16 → (((Transmit idleObject Intensity 15).2.drop 1).drop (5 * k)).take 5 =
      [PinEvent.mosi ((Transmit.temp Intensity 15).testBit (15 - k)), PinEvent.clk true,
       PinEvent.wait_ns (1000000000 / idleObject.SPI_Freq / 2), PinEvent.clk false,
       PinEvent.wait_ns (1000000000 / idleObject.SPI_Freq / 2)]) :=
  ⟨rfl, by decide,
    (Transmit_bit_timing idleObject idleObject Intensity 15 rfl (by decide)).2.2.1,
    (Transmit_bit_timing idleObject idleObject Intensity 15 rfl (by decide)).2.1⟩

/-! ## C15, C16: register addresses and the packing of the word -/

theorem shl_or_nat (a d : Nat) (hd : d < 256) : (a <<< 8) ||| d = a * 256 + d := by
  have h : d < 2 ^ 8 := hd
  rw [Nat.shiftLeft_eq, Nat.mul_comm, ← Nat.mul_add_lt_is_or h]

theorem enumerated_write (a d : Nat) (ha : a ∈ enumerators) (hd : d < 256) :
    ∃ tr : Transaction, some (Transaction.mk a d) = some tr ∧ tr.addr ∈ enumerators ∧
      tr.data < 256 ∧ ((tr.addr <<< 8) ||| tr.data) >>> 12 = 0 := by
  refine ⟨⟨a, d⟩, rfl, ha, hd, ?_⟩
  have h16 : a < 16 := by
    simp only [enumerators, NoOperation, Digit0, Digit1, Digit2, Digit3, Digit4, Digit5, Digit6,
      Digit7, DecodeMode, Intensity, ScanLimit, Shutdown, DisplayTest, List.mem_cons,
      List.mem_singleton, List.not_mem_nil, or_false] at ha
    omega
  show ((a <<< 8) ||| d) >>> 12 = 0
  rw [shl_or_nat a d hd, Nat.shiftRight_eq_div_pow]
  have : a * 256 + d < 2 ^ 12 := by norm_num; omega
  exact Nat.div_eq_of_lt this

theorem enumerated_rows (b : frame) :
    ∀ t ∈ [some (Transaction.mk 1 (b 0).val), some ⟨2, (b 1).val⟩, some ⟨3, (b 2).val⟩,
        some ⟨4, (b 3).val⟩, some ⟨5, (b 4).val⟩, some ⟨6, (b 5).val⟩,
        some ⟨7, (b 6).val⟩, some ⟨8, (b 7).val⟩],
      ∃ tr : Transaction, t = some tr ∧ tr.addr ∈ enumerators ∧
        tr.data < 256 ∧ ((tr.addr <<< 8) ||| tr.data) >>> 12 = 0 := by
  intro t ht
  simp only [List.mem_cons, List.mem_singleton, List.not_mem_nil, or_false] at ht
  rcases ht with h | h | h | h | h | h | h | h <;> subst h <;>
    exact enumerated_write _ _ (by decide) (Fin.isLt _)

theorem enumerated_init :
    ∀ t ∈ [some (Transaction.mk 9 0), some ⟨15, 0⟩, some ⟨12, 1⟩, some ⟨10, 15⟩, some ⟨11, 7⟩],
      ∃ tr : Transaction, t = some tr ∧ tr.addr ∈ enumerators ∧
        tr.data < 256 ∧ ((tr.addr <<< 8) ||| tr.data) >>> 12 = 0 := by
  intro t ht
  simp only [List.mem_cons, List.mem_singleton, List.not_mem_nil, or_false] at ht
  rcases ht with h | h | h | h | h <;> subst h <;>
    exact enumerated_write _ _ (by decide) (by decide)

/-- C15: every register write emitted by the constructor or by any public
member function, from an idle bus and for any arguments, goes to an address
that is one of the enumerators of `Address` (0, 1..8, 9, 10, 11, 12, 15) and
carries a byte, so the upper four bits of its 16-bit word are zero; the
addresses `SendBuffer` computes are `row + 1` for `row = 0..7`. -/
theorem addresses_are_enumerators (op : PublicOp) (s raw : matrix_8) (hs : BusIdle s) :
    (∀ t ∈ transactions s (op.run s).2,
      ∃ tr : Transaction, t = some tr ∧ tr.addr ∈ enumerators ∧
        tr.data < 256 ∧ ((tr.addr <<< 8) ||| tr.data) >>> 12 = 0) ∧
    (∀ t ∈ transactions raw (matrix_8.new raw).2,
      ∃ tr : Transaction, t = some tr ∧ tr.addr ∈ enumerators ∧
        tr.data < 256 ∧ ((tr.addr <<< 8) ||| tr.data) >>> 12 = 0) ∧
    (transactions s (SendBuffer s).2).map (Option.map Transaction.addr) =
      (List.range 8).map (fun row => some (row + 1)) ∧
    enumerators = [0, 1, 2, 3, 4, 5, 6, 7, 8, 9, 10, 11, 12, 15] := by
  refine ⟨?_, ?_, ?_, rfl⟩
  · cases op with
    | Init_Setting =>
      rw [PublicOp.run, (Sends_Init_Setting s hs).transactions_eq]
      exact enumerated_init
    | Set_Intensity x =>
      rw [PublicOp.run, (Sends_Set_Intensity s x hs).transactions_eq]
      intro t ht
      rw [List.mem_singleton] at ht
      subst ht
      exact enumerated_write _ _ (by decide) (Fin.isLt _)
    | Set_MatrixTest m =>
      rw [PublicOp.run, (Sends_Set_MatrixTest s m hs).transactions_eq]
      intro t ht
      rw [List.mem_singleton] at ht
      subst ht
      exact enumerated_write _ _ (by decide) (Fin.isLt _)
    | Set_Shutdown m =>
      rw [PublicOp.run, (Sends_Set_Shutdown s m hs).transactions_eq]
      intro t ht
      rw [List.mem_singleton] at ht
      subst ht
      exact enumerated_write _ _ (by decide) (Fin.isLt _)
    | ClearBuffer =>
      intro t ht
      exact absurd ht (List.not_mem_nil t)
    | SendBuffer =>
      rw [PublicOp.run, (Sends_SendBuffer s hs).transactions_eq]
      exact enumerated_rows s.buffer
    | operator_lshift data =>
      rw [PublicOp.run, (Sends_operator_lshift s data hs).transactions_eq]
      exact enumerated_rows data
    | HelloWorld =>
      rw [PublicOp.run, HelloWorld, (Sends_operator_lshift s _ hs).transactions_eq]
      exact enumerated_rows _
  · rw [(Sends_new raw).transactions_eq]
    exact enumerated_init
  · rw [(Sends_SendBuffer s hs).transactions_eq]
    rfl

/-- C15 for `HelloWorld` on the idle object. -/
theorem addresses_are_enumerators_witness :
    BusIdle idleObject ∧
    (transactions idleObject (SendBuffer idleObject).2).map (Option.map Transaction.addr) =
      (List.range 8).map (fun row => some (row + 1)) :=
  ⟨⟨rfl, rfl⟩,
    (addresses_are_enumerators PublicOp.HelloWorld idleObject idleObject ⟨rfl, rfl⟩).2.2.1⟩

/-- C16: for every address `a` in `0..15` and data byte `d` the 16-bit word
`w = (a << 8) | d` loses nothing: `w >> 8 = a` and `w & 0xFF = d`; so two
pairs with the same word are the same pair. -/
theorem word_packing_lossless (a a' : Address) (d d' : uint8_t) (ha : a < 16) (ha' : a' < 16) :
    Transmit.temp a d = (a <<< 8) ||| d.val ∧
    (Transmit.temp a d) >>> 8 = a ∧
    (Transmit.temp a d) &&& 0xFF = d.val ∧
    (Transmit.temp a d = Transmit.temp a' d' → a = a' ∧ d = d') := by
  have hd : d.val < 256 := d.isLt
  have hd' : d'.val < 256 := d'.isLt
  have h16 : @LT.lt Nat instLTNat a 16 := ha
  have h16' : @LT.lt Nat instLTNat a' 16 := ha'
  have e : Transmit.temp a d = a * 256 + d.val := temp_eq a d (by omega)
  have e' : Transmit.temp a' d' = a' * 256 + d'.val := temp_eq a' d' (by omega)
  refine ⟨?_, ?_, ?_, ?_⟩
  · rw [e, shl_or_eq]
  · rw [e, Nat.shiftRight_eq_div_pow]
    omega
  · rw [e, show (0xFF : Nat) = 2 ^ 8 - 1 from rfl, Nat.and_pow_two_sub_one_eq_mod]
    omega
  · intro h
    rw [e, e'] at h
    have h1 : @Eq Nat a a' := by omega
    have h2 : d.val = d'.val := by omega
    exact ⟨h1, Fin.ext h2⟩

/-- C16 at the word of `Transmit(Shutdown, 1)` against `Transmit(Intensity, 15)`. -/
theorem word_packing_lossless_witness :
    Shutdown < 16 ∧ Intensity < 16 ∧ (Transmit.temp Shutdown 1) >>> 8 = Shutdown ∧
    (Transmit.temp Shutdown 1) &&& 0xFF = (1 : uint8_t).val :=
  ⟨by decide, by decide,
    (word_packing_lossless Shutdown Intensity 1 15 (by decide) (by decide)).2.1,
    (word_packing_lossless Shutdown Intensity 1 15 (by decide) (by decide)).2.2.1⟩

/-! ## C17: the two builds of `Transmit` -/

theorem filter_isCs_loopEvents (temp delay n : Nat) :
    (loopEvents temp delay n).filter PinEvent.isCs = [] := by
  rw [List.filter_eq_nil_iff]
  intro e he
  rw [loopEvents_not_cs temp delay n e he]
  decide

theorem wordOf_sampledBits_Transmit (s : matrix_8) (addr : Address) (data : uint8_t)
    (hclk : s.clk = false) :
    wordOf (sampledBits s.clk s.mosi (Transmit s addr data).2) = Transmit.temp addr data := by
  rw [sampledBits_Transmit s addr data hclk, wordOf_wordBits]
  exact Nat.mod_eq_of_lt (Nat.mod_lt _ (by decide))

theorem Transmit_HardwareSPI_events (s : matrix_8) (addr : Address) (data : uint8_t) :
    (Transmit_HardwareSPI s addr data).2 =
      [PinEvent.cs false, PinEvent.spi_write (Transmit.temp addr data), PinEvent.cs true] := rfl

/-- C17: with the clock low on entry, the 16-bit value read from the data line
at the 16 rising clock edges of the simulated-SPI `Transmit`, most significant
bit first, is the word the hardware-SPI `Transmit` passes to `spi.write`; in
both builds the chip-select writes are exactly low then high, first and last
in the trace; and the receiver decodes the same register write from both. -/
theorem builds_interchangeable (s : matrix_8) (a : Address) (d : uint8_t)
    (hclk : s.clk = false) :
    (Transmit_HardwareSPI s a d).2 =
      [PinEvent.cs false,
       PinEvent.spi_write (wordOf (sampledBits s.clk s.mosi (Transmit s a d).2)),
       PinEvent.cs true] ∧
    (Transmit s a d).2.filter PinEvent.isCs = [PinEvent.cs false, PinEvent.cs true] ∧
    (Transmit_HardwareSPI s a d).2.filter PinEvent.isCs =
      [PinEvent.cs false, PinEvent.cs true] ∧
    (Transmit s a d).2.head? = some (PinEvent.cs false) ∧
    (Transmit s a d).2.getLast? = some (PinEvent.cs true) ∧
    transactions s (Transmit_HardwareSPI s a d).2 = transactions s (Transmit s a d).2 := by
  refine ⟨?_, ?_, ?_, ?_, ?_, ?_⟩
  · rw [wordOf_sampledBits_Transmit s a d hclk, Transmit_HardwareSPI_events]
  · rw [Transmit_events, List.filter_cons_of_pos rfl, List.filter_append,
      filter_isCs_loopEvents]
    rfl
  · rw [Transmit_HardwareSPI_events]
    rfl
  · rw [Transmit_events]
    rfl
  · rw [Transmit_events, ← List.cons_append, List.getLast?_concat]
  · rw [transactions, transactions, Receiver.idle, hclk, Receiver_run_Transmit,
      Transmit_HardwareSPI_events]
    rfl

/-- C17 at `Transmit(Intensity, 15)` on the idle object: both builds carry the
word `0x0A0F`. -/
theorem builds_interchangeable_witness :
    idleObject.clk = false ∧
    (Transmit_HardwareSPI idleObject Intensity 15).2 =
      [PinEvent.cs false,
       PinEvent.spi_write
         (wordOf (sampledBits idleObject.clk idleObject.mosi (Transmit idleObject Intensity 15).2)),
       PinEvent.cs true] :=
  ⟨rfl, (builds_interchangeable idleObject Intensity 15 rfl).1⟩

/-! ## C18, C19: the idle bus and the monotone intensity -/

theorem PublicOp_busIdle (op : PublicOp) (s : matrix_8) (hs : BusIdle s) :
    BusIdle (op.run s).1 := by
  cases op with
  | Init_Setting => exact (Sends_Init_Setting s hs).1
  | Set_Intensity x => exact (Sends_Set_Intensity s x hs).1
  | Set_MatrixTest m => exact (Sends_Set_MatrixTest s m hs).1
  | Set_Shutdown m => exact (Sends_Set_Shutdown s m hs).1
  | ClearBuffer => exact (Sends_assign_buffer s _ hs).1
  | SendBuffer => exact (Sends_SendBuffer s hs).1
  | operator_lshift data => exact (Sends_operator_lshift s data hs).1
  | HelloWorld => exact (Sends_operator_lshift s _ hs).1

/-- C18: in the simulated-SPI build the bus is idle (chip-select high, clock
low) after construction and after every public member function started on an
idle bus; every `Transmit` started on an idle bus ends on an idle bus, and
the first write to the clock line in its trace drives it high, so, the clock
being low before, the first clock event of every word is a rising edge. -/
theorem bus_idle_invariant (raw s : matrix_8) (op : PublicOp) (a : Address) (d : uint8_t)
    (hs : BusIdle s) :
    BusIdle (matrix_8.new raw).1 ∧
    BusIdle (op.run s).1 ∧
    BusIdle (Transmit s a d).1 ∧
    s.clk = false ∧
    firstClockWrite (Transmit s a d).2 = some true ∧
    (sampledBits s.clk s.mosi (Transmit s a d).2).length = 16 := by
  refine ⟨(Sends_new raw).1, PublicOp_busIdle op s hs, ?_, hs.2, ?_, ?_⟩
  · rw [Transmit_state]
    exact ⟨rfl, rfl⟩
  · rw [Transmit_events]
    rfl
  · rw [sampledBits_Transmit s a d hs.2, wordBits_length]

/-- C18 at `Set_Shutdown(true)` and `Transmit(Intensity, 15)` on the idle object. -/
theorem bus_idle_invariant_witness :
    BusIdle idleObject ∧
    BusIdle ((PublicOp.Set_Shutdown true).run idleObject).1 ∧
    firstClockWrite (Transmit idleObject Intensity 15).2 = some true :=
  ⟨⟨rfl, rfl⟩,
    (bus_idle_invariant idleObject idleObject (PublicOp.Set_Shutdown true) Intensity 15
      ⟨rfl, rfl⟩).2.1,
    (bus_idle_invariant idleObject idleObject (PublicOp.Set_Shutdown true) Intensity 15
      ⟨rfl, rfl⟩).2.2.2.2.1⟩

/-- C19: on an idle bus, for exact rational levels `0 ≤ x ≤ y ≤ 1` the data
byte `Set_Intensity(x)` sends is at most the one `Set_Intensity(y)` sends, both
are in `0..15`, and 15 is sent only for level 1. -/
theorem Set_Intensity_monotone (s : matrix_8) (x y : ℚ) (hs : BusIdle s)
    (hx : 0 ≤ x) (hxy : x ≤ y) (hy : y ≤ 1) :
    transactions s (Set_Intensity s x).2 = [some ⟨10, ⌊15 * x⌋₊⟩] ∧
    transactions s (Set_Intensity s y).2 = [some ⟨10, ⌊15 * y⌋₊⟩] ∧
    ⌊15 * x⌋₊ ≤ ⌊15 * y⌋₊ ∧
    ⌊15 * y⌋₊ ≤ 15 ∧
    (⌊15 * x⌋₊ = 15 ↔ x = 1) ∧
    (⌊15 * y⌋₊ = 15 ↔ y = 1) := by
  have key : ∀ z : ℚ, 0 ≤ z → z ≤ 1 →
      transactions s (Set_Intensity s z).2 = [some ⟨10, ⌊15 * z⌋₊⟩] ∧
      (⌊15 * z⌋₊ = 15 ↔ z = 1) := by
    intro z hz0 hz1
    have hnn : (0 : ℚ) ≤ 15 * z := by linarith
    constructor
    · rw [(Sends_Set_Intensity s z hs).transactions_eq,
        float_to_uint8_floor (15 * z) hnn (by linarith)]
    · rw [Nat.floor_eq_iff hnn]
      constructor
      · rintro ⟨h1, _⟩
        have h1' : (15 : ℚ) ≤ 15 * z := by exact_mod_cast h1
        linarith
      · intro h
        subst h
        norm_num
  have hy0 : 0 ≤ y := le_trans hx hxy
  have hx1 : x ≤ 1 := le_trans hxy hy
  refine ⟨(key x hx hx1).1, (key y hy0 hy).1, ?_, ?_, (key x hx hx1).2, (key y hy0 hy).2⟩
  · exact Nat.floor_mono (by linarith)
  · apply Nat.floor_le_of_le
    have : 15 * y ≤ 15 := by linarith
    exact_mod_cast this

/-- C19 at the levels 1/3 and 1/2 on the idle object. -/
theorem Set_Intensity_monotone_witness :
    BusIdle idleObject ∧ (0 : ℚ) ≤ 1 / 3 ∧ (1 / 3 : ℚ) ≤ 1 / 2 ∧ (1 / 2 : ℚ) ≤ 1 ∧
    ⌊(15 * (1 / 3) : ℚ)⌋₊ ≤ ⌊(15 * (1 / 2) : ℚ)⌋₊ :=
  ⟨⟨rfl, rfl⟩, by norm_num, by norm_num, by norm_num,
    (Set_Intensity_monotone idleObject (1 / 3) (1 / 2) ⟨rfl, rfl⟩ (by norm_num) (by norm_num)
      (by norm_num)).2.2.1⟩

end DT5EDU
